import Mathlib

set_option maxRecDepth 100000

/-!
Verification development for the Resonance repository.

The development shallowly embeds the two core pieces of the code base:

* `backend/scripts/modify_preset.py` — the patch engine (`apply_patch_to_vital`
  and its CLI wrapper), modelled over an ordered association-list JSON document
  model that mirrors Python dict semantics (insertion order, unique keys,
  in-place update on existing keys, append on new keys).

* `backend/scripts/upload.py` — the sync orchestrator (`main`), the asset
  matcher (`find_matching_wav`) and the stable-ID generator (`stable_id_for`,
  a literal embedding of RFC 4122 uuid5 over SHA-1, as used by Python
  `uuid.uuid5`).

Machine integers are modelled as `Nat` with explicit `% 2 ^ 32` where the
source (SHA-1) works modulo 32 bits.  Fallible code (the CLI, the network
calls of the orchestrator) is modelled with `Except`/`Option`.
-/

/-- A JSON value, as produced by Python `json.load`.  Objects are ordered
association lists, mirroring the insertion-ordered dict of CPython. -/
inductive Json where
  | null : Json
  | bool (b : Bool) : Json
  | num (n : Int) : Json
  | str (s : String) : Json
  | arr (elems : List Json) : Json
  | obj (fields : List (String × Json)) : Json

/-- Ordered JSON object: the representation of a Python dict after
`json.load`. -/
abbrev Obj := List (String × Json)

/-- `j.isObj` tells whether a JSON value is a mapping — the
`isinstance(..., dict)` test of the source. -/
def Json.isObj : Json → Bool
  | Json.obj _ => true
  | _ => false

/-- Python `d[k]`: the value at the (unique) occurrence of key `k`, `none`
when absent.  On the duplicate-free lists produced by dict operations the
first occurrence is the occurrence. -/
def dLookup : Obj → String → Option Json
  | [], _ => none
  | kv :: rest, k => if kv.1 = k then some kv.2 else dLookup rest k

/-- Python `k in d`. -/
def dContains : Obj → String → Bool
  | [], _ => false
  | kv :: rest, k => decide (kv.1 = k) || dContains rest k

/-- Python `d[k] = v`: replace the value in place at the (unique, hence
first) occurrence of `k`, keeping its position; append a new pair when the
key is absent. -/
def dAssign : Obj → String → Json → Obj
  | [], k, v => [(k, v)]
  | kv :: rest, k, v => if kv.1 = k then (k, v) :: rest else kv :: dAssign rest k v

/-- The `settings` sub-object of a document: the value bound at key
`"settings"` when it is a mapping, and the empty mapping otherwise.  This is
the state of `vital_data['settings']` right after the guard in
`apply_patch_to_vital` that replaces an absent or non-dict `settings` with
`{}` (modify_preset.py, lines 8-10). -/
def getSettings (doc : Obj) : Obj :=
  match dLookup doc "settings" with
  | some (Json.obj s) => s
  | _ => []

/-- The sequence of assignments `settings[key] = value` performed by the
`for key, value in patch_dict.items()` loop of `apply_patch_to_vital`. -/
def assigns (s : Obj) (patch : Obj) : Obj :=
  patch.foldl (fun acc kv => dAssign acc kv.1 kv.2) s

/-- The pure core of `apply_patch_to_vital` (modify_preset.py, lines 5-15):
ensure `settings` is a mapping (replacing it with `{}` when absent or of the
wrong type), assign every patch pair into it, leave every other top-level
field untouched.  The updated `settings` value sits at the original position
of the `settings` key, or is appended when the key was absent — exactly the
dict mutation of the source. -/
def applyPatch (doc : Obj) (patch : Obj) : Obj :=
  dAssign doc "settings" (Json.obj (assigns (getSettings doc) patch))

/-- Last assignment to key `k` in a pair sequence `p` (the value the
assignment loop leaves at `k`), `none` when `k` is never assigned. -/
def lastAssign (p : Obj) (k : String) : Option Json :=
  p.foldl (fun acc kv => if kv.1 = k then some kv.2 else acc) none

/-! ### Basic lemmas about the dict operations -/

theorem dContains_iff (o : Obj) (k : String) :
    dContains o k = true ↔ k ∈ o.map Prod.fst := by
  induction o with
  | nil => simp [dContains]
  | cons kv rest ih =>
    simp only [dContains, List.map_cons, List.mem_cons, Bool.or_eq_true,
      decide_eq_true_eq, ih]
    constructor
    · rintro (h | h)
      · exact Or.inl h.symm
      · exact Or.inr h
    · rintro (h | h)
      · exact Or.inl h.symm
      · exact Or.inr h

theorem mem_keys_dAssign (o : Obj) (k k' : String) (v : Json) :
    k' ∈ (dAssign o k v).map Prod.fst ↔ k' = k ∨ k' ∈ o.map Prod.fst := by
  induction o with
  | nil => simp [dAssign]
  | cons kv rest ih =>
    by_cases h1 : kv.1 = k
    · rw [show dAssign (kv :: rest) k v = (k, v) :: rest by simp [dAssign, h1]]
      simp only [List.map_cons, List.mem_cons, h1]
      tauto
    · rw [show dAssign (kv :: rest) k v = kv :: dAssign rest k v by
        simp [dAssign, h1]]
      simp only [List.map_cons, List.mem_cons, ih]
      tauto

theorem dLookup_dAssign (o : Obj) (k k' : String) (v : Json) :
    dLookup (dAssign o k v) k' = if k' = k then some v else dLookup o k' := by
  induction o with
  | nil =>
    by_cases h : k' = k
    · subst h; simp [dAssign, dLookup]
    · have h' : ¬ k = k' := fun hh => h hh.symm
      simp [dAssign, dLookup, h, h']
  | cons kv rest ih =>
    by_cases h1 : kv.1 = k
    · rw [show dAssign (kv :: rest) k v = (k, v) :: rest by simp [dAssign, h1]]
      by_cases h2 : k' = k
      · subst h2; simp [dLookup]
      · have h2' : ¬ k = k' := fun hh => h2 hh.symm
        have h3 : ¬ kv.1 = k' := by rw [h1]; exact h2'
        simp [dLookup, h2, h2', h3]
    · rw [show dAssign (kv :: rest) k v = kv :: dAssign rest k v by
        simp [dAssign, h1]]
      by_cases h2 : kv.1 = k'
      · have h3 : ¬ k' = k := fun hh => h1 (h2.trans hh)
        simp [dLookup, h2, h3]
      · simp [dLookup, h2, ih]

theorem dContains_dAssign_self (o : Obj) (k : String) (v : Json) :
    dContains (dAssign o k v) k = true := by
  rw [dContains_iff]
  exact (mem_keys_dAssign o k k v).mpr (Or.inl rfl)

theorem dContains_dAssign_mono (o : Obj) (k k' : String) (v : Json)
    (h : dContains o k' = true) : dContains (dAssign o k v) k' = true := by
  rw [dContains_iff] at h ⊢
  exact (mem_keys_dAssign o k k' v).mpr (Or.inr h)

theorem dContains_assigns_mono (p : Obj) (o : Obj) (k : String)
    (h : dContains o k = true) : dContains (assigns o p) k = true := by
  induction p generalizing o with
  | nil => exact h
  | cons kv rest ih =>
    exact ih (dAssign o kv.1 kv.2) (dContains_dAssign_mono o kv.1 k kv.2 h)

/-- Reassigning the same key overwrites the previous assignment. -/
theorem dAssign_dAssign (o : Obj) (k : String) (v v' : Json) :
    dAssign (dAssign o k v) k v' = dAssign o k v' := by
  induction o with
  | nil => simp [dAssign]
  | cons kv rest ih =>
    by_cases h : kv.1 = k <;> simp [dAssign, h, ih]

/-- Assignments to distinct keys commute, provided the first key is already
present (so that no append-order question arises). -/
theorem dAssign_comm (o : Obj) (k k' : String) (v v' : Json)
    (hne : ¬ k = k') (hc : dContains o k = true) :
    dAssign (dAssign o k v) k' v' = dAssign (dAssign o k' v') k v := by
  induction o with
  | nil => simp [dContains] at hc
  | cons kv rest ih =>
    by_cases h1 : kv.1 = k
    · have h2 : ¬ kv.1 = k' := fun hh => hne (h1 ▸ hh)
      rw [show dAssign (kv :: rest) k v = (k, v) :: rest by simp [dAssign, h1],
        show dAssign (kv :: rest) k' v' = kv :: dAssign rest k' v' by
          simp [dAssign, h2],
        show dAssign ((k, v) :: rest) k' v' = (k, v) :: dAssign rest k' v' by
          simp [dAssign, hne],
        show dAssign (kv :: dAssign rest k' v') k v = (k, v) :: dAssign rest k' v' by
          simp [dAssign, h1]]
    · by_cases h2 : kv.1 = k'
      · have hne' : ¬ k' = k := fun hh => hne hh.symm
        rw [show dAssign (kv :: rest) k v = kv :: dAssign rest k v by
            simp [dAssign, h1],
          show dAssign (kv :: rest) k' v' = (k', v') :: rest by
            simp [dAssign, h2],
          show dAssign (kv :: dAssign rest k v) k' v' = (k', v') :: dAssign rest k v by
            simp [dAssign, h2],
          show dAssign ((k', v') :: rest) k v = (k', v') :: dAssign rest k v by
            simp [dAssign, hne']]
      · have hc' : dContains rest k = true := by
          simpa [dContains, h1] using hc
        rw [show dAssign (kv :: rest) k v = kv :: dAssign rest k v by
          simp [dAssign, h1]]
        rw [show dAssign (kv :: rest) k' v' = kv :: dAssign rest k' v' by
          simp [dAssign, h2]]
        rw [show dAssign (kv :: dAssign rest k v) k' v' =
            kv :: dAssign (dAssign rest k v) k' v' by simp [dAssign, h2]]
        rw [show dAssign (kv :: dAssign rest k' v') k v =
            kv :: dAssign (dAssign rest k' v') k v by simp [dAssign, h1]]
        rw [ih hc']

/-- Assigning a key that a later assignment sequence overwrites anyway does
not change the outcome, provided the key is already present. -/
theorem assigns_dAssign_absorb (p : Obj) (o : Obj) (k : String) (v : Json)
    (hc : dContains o k = true) (hk : k ∈ p.map Prod.fst) :
    assigns (dAssign o k v) p = assigns o p := by
  induction p generalizing o with
  | nil => simp at hk
  | cons kv rest ih =>
    by_cases h : kv.1 = k
    · show assigns (dAssign (dAssign o k v) kv.1 kv.2) rest
        = assigns (dAssign o kv.1 kv.2) rest
      rw [h, dAssign_dAssign]
    · have hk' : k ∈ rest.map Prod.fst := by
        rcases List.mem_map.mp hk with ⟨kv', hmem, hfst⟩
        rcases List.mem_cons.mp hmem with h' | h'
        · exact absurd (h' ▸ hfst : kv.1 = k) h
        · exact List.mem_map.mpr ⟨kv', h', hfst⟩
      show assigns (dAssign (dAssign o k v) kv.1 kv.2) rest
        = assigns (dAssign o kv.1 kv.2) rest
      rw [dAssign_comm o k kv.1 v kv.2 (fun hh => h hh.symm) hc]
      exact ih (dAssign o kv.1 kv.2)
        (dContains_dAssign_mono o kv.1 k kv.2 hc) hk'

/-- An assignment to a key untouched by a sequence moves freely across the
sequence, provided the key is already present. -/
theorem dAssign_assigns_comm (p : Obj) (o : Obj) (k : String) (v : Json)
    (hc : dContains o k = true) (hk : ¬ k ∈ p.map Prod.fst) :
    dAssign (assigns o p) k v = assigns (dAssign o k v) p := by
  induction p generalizing o with
  | nil => rfl
  | cons kv rest ih =>
    have hne : ¬ kv.1 = k := fun h =>
      hk (List.mem_map.mpr ⟨kv, List.mem_cons_self kv rest, h⟩)
    have hk' : ¬ k ∈ rest.map Prod.fst := fun h =>
      hk (by
        rcases List.mem_map.mp h with ⟨kv', hmem, hfst⟩
        exact List.mem_map.mpr ⟨kv', List.mem_cons_of_mem kv hmem, hfst⟩)
    show dAssign (assigns (dAssign o kv.1 kv.2) rest) k v
      = assigns (dAssign (dAssign o k v) kv.1 kv.2) rest
    rw [ih (dAssign o kv.1 kv.2) (dContains_dAssign_mono o kv.1 k kv.2 hc) hk',
      dAssign_comm o k kv.1 v kv.2 (fun hh => hne hh.symm) hc]

/-- The assignment loop is idempotent: replaying the same sequence of
assignments leaves the object unchanged. -/
theorem assigns_assigns (p : Obj) (s : Obj) :
    assigns (assigns s p) p = assigns s p := by
  induction p generalizing s with
  | nil => rfl
  | cons kv rest ih =>
    show assigns (dAssign (assigns (dAssign s kv.1 kv.2) rest) kv.1 kv.2) rest
      = assigns (dAssign s kv.1 kv.2) rest
    have hc : dContains (assigns (dAssign s kv.1 kv.2) rest) kv.1 = true :=
      dContains_assigns_mono rest _ kv.1 (dContains_dAssign_self s kv.1 kv.2)
    by_cases hk : kv.1 ∈ rest.map Prod.fst
    · rw [assigns_dAssign_absorb rest _ kv.1 kv.2 hc hk]
      exact ih (dAssign s kv.1 kv.2)
    · rw [dAssign_assigns_comm rest _ kv.1 kv.2
        (dContains_dAssign_self s kv.1 kv.2) hk, dAssign_dAssign]
      exact ih (dAssign s kv.1 kv.2)

theorem lastAssign_fold (p : Obj) (k : String) (a : Option Json) :
    p.foldl (fun acc kv => if kv.1 = k then some kv.2 else acc) a =
      match lastAssign p k with
      | some v => some v
      | none => a := by
  induction p generalizing a with
  | nil => rfl
  | cons kv p' ih =>
    show p'.foldl _ (if kv.1 = k then some kv.2 else a) = _
    rw [ih]
    have e : lastAssign (kv :: p') k =
        match lastAssign p' k with
        | some v => some v
        | none => if kv.1 = k then some kv.2 else none := by
      show p'.foldl _ (if kv.1 = k then some kv.2 else none) = _
      rw [ih]
    rw [e]
    cases h : lastAssign p' k with
    | some v => rfl
    | none => by_cases hk : kv.1 = k <;> simp [hk]

/-- The value the assignment loop leaves at key `k`: the last assignment to
`k` when there is one, the original value otherwise. -/
theorem dLookup_assigns (p : Obj) (s : Obj) (k : String) :
    dLookup (assigns s p) k =
      match lastAssign p k with
      | some v => some v
      | none => dLookup s k := by
  induction p generalizing s with
  | nil => rfl
  | cons kv p' ih =>
    show dLookup (assigns (dAssign s kv.1 kv.2) p') k = _
    rw [ih]
    have e : lastAssign (kv :: p') k =
        match lastAssign p' k with
        | some v => some v
        | none => if kv.1 = k then some kv.2 else none := by
      show p'.foldl _ (if kv.1 = k then some kv.2 else none) = _
      rw [lastAssign_fold]
    rw [e]
    cases h : lastAssign p' k with
    | some v => rfl
    | none =>
      rw [dLookup_dAssign]
      by_cases hk : kv.1 = k
      · simp [hk]
      · have hk' : ¬ k = kv.1 := fun hh => hk hh.symm
        simp [hk, hk']

theorem lastAssign_eq_none (p : Obj) (k : String)
    (h : ¬ k ∈ p.map Prod.fst) : lastAssign p k = none := by
  induction p with
  | nil => rfl
  | cons kv p' ih =>
    have h1 : ¬ kv.1 = k := fun hh =>
      h (List.mem_map.mpr ⟨kv, List.mem_cons_self kv p', hh⟩)
    have h2 : ¬ k ∈ p'.map Prod.fst := fun hh =>
      h (by
        rcases List.mem_map.mp hh with ⟨kv', hmem, hfst⟩
        exact List.mem_map.mpr ⟨kv', List.mem_cons_of_mem kv hmem, hfst⟩)
    have e : lastAssign (kv :: p') k =
        match lastAssign p' k with
        | some v => some v
        | none => if kv.1 = k then some kv.2 else none := by
      show p'.foldl _ (if kv.1 = k then some kv.2 else none) = _
      rw [lastAssign_fold]
    rw [e, ih h2]
    simp [h1]

/-- In a duplicate-free pair list (a real mapping) the last assignment to a
present key is its unique value. -/
theorem lastAssign_eq_of_nodup (p : Obj) (hnd : (p.map Prod.fst).Nodup)
    (k : String) (v : Json) (hm : (k, v) ∈ p) : lastAssign p k = some v := by
  induction p with
  | nil => simp at hm
  | cons kv p' ih =>
    rw [List.map_cons, List.nodup_cons] at hnd
    have e : lastAssign (kv :: p') k =
        match lastAssign p' k with
        | some v => some v
        | none => if kv.1 = k then some kv.2 else none := by
      show p'.foldl _ (if kv.1 = k then some kv.2 else none) = _
      rw [lastAssign_fold]
    rcases List.mem_cons.mp hm with h | h
    · have hk : kv.1 = k := by rw [← h]
      have hv : kv.2 = v := by rw [← h]
      have hnone : lastAssign p' k = none :=
        lastAssign_eq_none p' k (fun hmem => hnd.1 (hk ▸ hmem))
      rw [e, hnone]
      simp [hk, hv]
    · rw [e, ih hnd.2 h]

theorem dLookup_eq_none_of_not_dContains (o : Obj) (k : String)
    (h : dContains o k = false) : dLookup o k = none := by
  induction o with
  | nil => rfl
  | cons kv rest ih =>
    simp only [dContains, Bool.or_eq_false_iff, decide_eq_false_iff_not] at h
    simp only [dLookup, if_neg h.1]
    exact ih (by simpa [dContains] using h.2)

/-- When the base document has no `settings` mapping (absent key or non-dict
value), the loop starts from the empty mapping. -/
theorem getSettings_eq_nil (doc : Obj)
    (h : dContains doc "settings" = false ∨
      (∃ j, dLookup doc "settings" = some j ∧ j.isObj = false)) :
    getSettings doc = [] := by
  unfold getSettings
  rcases h with h | ⟨j, hj, hobj⟩
  · rw [dLookup_eq_none_of_not_dContains doc "settings" h]
  · rw [hj]
    cases j with
    | obj fields => simp [Json.isObj] at hobj
    | null => rfl
    | bool b => rfl
    | num n => rfl
    | str s => rfl
    | arr elems => rfl

/-- Claim C2: when the base document's `settings` field is absent or not a
mapping, `apply_patch_to_vital` replaces it with an empty mapping and then
assigns every patch pair into it; in general the resulting `settings` is the
original `settings` mapping overwritten by the patch — keys of the patch get
their patch value, `settings` keys not mentioned in the patch keep their
original value, and new patch keys are added. -/
theorem C2_patch_merge_semantics (doc patch : Obj)
    (hnd : (patch.map Prod.fst).Nodup) :
    ((dContains doc "settings" = false ∨
        (∃ j, dLookup doc "settings" = some j ∧ j.isObj = false)) →
      dLookup (applyPatch doc patch) "settings"
        = some (Json.obj (assigns [] patch))) ∧
    dLookup (applyPatch doc patch) "settings"
      = some (Json.obj (assigns (getSettings doc) patch)) ∧
    (∀ k v, (k, v) ∈ patch →
      dLookup (assigns (getSettings doc) patch) k = some v) ∧
    (∀ k, ¬ k ∈ patch.map Prod.fst →
      dLookup (assigns (getSettings doc) patch) k
        = dLookup (getSettings doc) k) := by
  refine ⟨?_, ?_, ?_, ?_⟩
  · intro h
    unfold applyPatch
    rw [dLookup_dAssign, getSettings_eq_nil doc h]
    simp
  · unfold applyPatch
    rw [dLookup_dAssign]
    simp
  · intro k v hm
    rw [dLookup_assigns, lastAssign_eq_of_nodup patch hnd k v hm]
  · intro k hk
    rw [dLookup_assigns, lastAssign_eq_none patch k hk]

/-- Claim C2 witness: the worked example of the spec — base
`settings = ⟨a ↦ 1, b ↦ 2⟩` patched with `⟨b ↦ 5, c ↦ 9⟩`. -/
theorem C2_patch_merge_semantics_witness :
    ([("b", Json.num 5), ("c", Json.num 9)].map
        (Prod.fst (α := String) (β := Json))).Nodup ∧
    dLookup
      (applyPatch
        [("settings", Json.obj [("a", Json.num 1), ("b", Json.num 2)]),
         ("meta", Json.obj [("x", Json.bool true)])]
        [("b", Json.num 5), ("c", Json.num 9)])
      "settings"
      = some (Json.obj (assigns
          (getSettings
            [("settings", Json.obj [("a", Json.num 1), ("b", Json.num 2)]),
             ("meta", Json.obj [("x", Json.bool true)])])
          [("b", Json.num 5), ("c", Json.num 9)])) := by
  constructor
  · decide
  · exact (C2_patch_merge_semantics
      [("settings", Json.obj [("a", Json.num 1), ("b", Json.num 2)]),
       ("meta", Json.obj [("x", Json.bool true)])]
      [("b", Json.num 5), ("c", Json.num 9)] (by decide)).2.1

/-- The patched `settings` of the worked spec example, evaluated. -/
example : applyPatch
    [("settings", Json.obj [("a", Json.num 1), ("b", Json.num 2)]),
     ("meta", Json.obj [("x", Json.bool true)])]
    [("b", Json.num 5), ("c", Json.num 9)]
    = [("settings",
        Json.obj [("a", Json.num 1), ("b", Json.num 5), ("c", Json.num 9)]),
       ("meta", Json.obj [("x", Json.bool true)])] := by rfl

theorem filter_ne_dAssign (o : Obj) (k : String) (v : Json) :
    (dAssign o k v).filter (fun kv => !(decide (kv.1 = k)))
      = o.filter (fun kv => !(decide (kv.1 = k))) := by
  induction o with
  | nil => simp [dAssign]
  | cons kv rest ih =>
    by_cases h : kv.1 = k
    · rw [show dAssign (kv :: rest) k v = (k, v) :: rest by simp [dAssign, h]]
      simp [List.filter_cons, h]
    · rw [show dAssign (kv :: rest) k v = kv :: dAssign rest k v by
        simp [dAssign, h]]
      simp [List.filter_cons, h, ih]

/-- Claim C3: `apply_patch_to_vital` preserves every top-level field other
than `settings` verbatim — both pointwise (each non-`settings` key keeps its
value) and structurally (the non-`settings` pairs, in order, are unchanged). -/
theorem C3_non_settings_frame (doc patch : Obj) :
    (∀ k, ¬ k = "settings" →
      dLookup (applyPatch doc patch) k = dLookup doc k) ∧
    (applyPatch doc patch).filter (fun kv => !(decide (kv.1 = "settings")))
      = doc.filter (fun kv => !(decide (kv.1 = "settings"))) := by
  constructor
  · intro k hk
    unfold applyPatch
    rw [dLookup_dAssign]
    simp [hk]
  · exact filter_ne_dAssign doc "settings" _

/-- Claim C3 witness: the `meta` field of the worked spec example survives
patching untouched. -/
theorem C3_non_settings_frame_witness :
    ¬ "meta" = "settings" ∧
    dLookup
      (applyPatch
        [("settings", Json.obj [("a", Json.num 1), ("b", Json.num 2)]),
         ("meta", Json.obj [("x", Json.bool true)])]
        [("b", Json.num 5), ("c", Json.num 9)])
      "meta"
      = dLookup
        [("settings", Json.obj [("a", Json.num 1), ("b", Json.num 2)]),
         ("meta", Json.obj [("x", Json.bool true)])]
        "meta" :=
  ⟨by decide,
    (C3_non_settings_frame
      [("settings", Json.obj [("a", Json.num 1), ("b", Json.num 2)]),
       ("meta", Json.obj [("x", Json.bool true)])]
      [("b", Json.num 5), ("c", Json.num 9)]).1 "meta" (by decide)⟩

/-- Claim C10: `apply_patch_to_vital` is idempotent — applying the same patch
to an already-patched document changes nothing. -/
theorem C10_apply_patch_idempotent (doc patch : Obj) :
    applyPatch (applyPatch doc patch) patch = applyPatch doc patch := by
  unfold applyPatch
  have hg : getSettings
      (dAssign doc "settings" (Json.obj (assigns (getSettings doc) patch)))
      = assigns (getSettings doc) patch := by
    unfold getSettings
    rw [dLookup_dAssign]
    simp
  rw [hg, assigns_assigns, dAssign_dAssign]

/-! ### The asset matcher (`find_matching_wav`, upload.py lines 56-90) -/

/-- Python `str.lower()` as used by the matcher: per-character lowercasing
(the compared tokens are all ASCII).  Defined structurally over the character
list so that concrete probes evaluate inside the kernel. -/
def lowerStr (s : String) : String :=
  String.mk (s.toList.map Char.toLower)

/-- Index of the last `.` in a character list (auxiliary for the pathlib
suffix rule). -/
def lastDotAux : List Char → Nat → Option Nat → Option Nat
  | [], _, acc => acc
  | c :: cs, i, acc => lastDotAux cs (i + 1) (if c = '.' then some i else acc)

/-- `pathlib.PurePath.stem`: the final component without its suffix.  The
suffix starts at the last dot, provided that dot is neither the first nor the
last character (CPython: `0 < i < len(name) - 1`). -/
def stemOf (name : String) : String :=
  let cs := name.toList
  match lastDotAux cs 0 none with
  | some i => if 0 < i ∧ i < cs.length - 1 then String.mk (cs.take i) else name
  | none => name

/-- `Path(*parts).with_suffix(".wav")`: the same segments with the final
segment's suffix replaced by `.wav`. -/
def withSuffixWav (parts : List String) : List String :=
  match parts.getLast? with
  | some seg => parts.dropLast ++ [stemOf seg ++ ".wav"]
  | none => []

/-- The `for v in variants: if candidate(v).exists(): return candidate(v)`
loop of `find_matching_wav`; `ex` is the `.exists()` probe of the preview
tree (paths relative to `PREVIEWS_DIR`). -/
def firstExisting (ex : List String → Bool) : List (List String) → Option (List String)
  | [] => none
  | v :: vs =>
    if ex (withSuffixWav v) then some (withSuffixWav v) else firstExisting ex vs

/-- `find_matching_wav` (upload.py lines 56-90): build the variant list — the
exact mirror, the mirror without any `Presets` segment, and (when the first
segment is the branded root folder, case-insensitively) the same two variants
with the root dropped — and return the first candidate `.wav` path that
exists. -/
def find_matching_wav (ex : List String → Bool) (parts : List String) :
    Option (List String) :=
  let base := [parts, parts.filter (fun p => !(decide (lowerStr p = "presets")))]
  let variants : List (List String) :=
    match parts with
    | [] => base
    | p0 :: rest =>
      if lowerStr p0 = "jek\x27s vital presets" ∨ lowerStr p0 = "jeks vital presets"
      then base ++ [rest, rest.filter (fun p => !(decide (lowerStr p = "presets")))]
      else base
  firstExisting ex variants

/-- The reserved segment name of spec rule 4.2.2. -/
def reservedToken : String := "presets"

/-- The root-alias set of spec rule 4.2.3. -/
def rootAliases : List String := ["jek\x27s vital presets", "jeks vital presets"]

/-- Spec rule 4.2.2: all segments whose lowercase form equals the reserved
token are removed; surviving segments keep their original casing. -/
def stripReserved (segs : List String) : List String :=
  segs.filter (fun s => !(decide (lowerStr s = reservedToken)))

/-- Modelled from the spec's matcher description (section 4.2): the fixed,
ordered candidate list — (1) exact mirror, (2) reserved token removed,
(3) when the first segment's lowercase form is a root alias, the remaining
segments unchanged and with the reserved token removed. -/
def specCandidates (segs : List String) : List (List String) :=
  [segs, stripReserved segs] ++
    (match segs with
     | s0 :: rest =>
       if lowerStr s0 ∈ rootAliases then [rest, stripReserved rest] else []
     | [] => [])

/-- The spec's matcher: probe the candidates in order, substituting the
preview extension for the preset extension, and return the first existing
one, `none` otherwise. -/
def matchSpec (ex : List String → Bool) (segs : List String) :
    Option (List String) :=
  ((specCandidates segs).map withSuffixWav).find? ex

theorem firstExisting_eq_find (ex : List String → Bool)
    (vs : List (List String)) :
    firstExisting ex vs = (vs.map withSuffixWav).find? ex := by
  induction vs with
  | nil => rfl
  | cons v vs ih =>
    by_cases h : ex (withSuffixWav v) <;>
      simp [firstExisting, h, ih, List.find?_cons]

/-- Claim C4: `find_matching_wav` computes exactly the spec's ordered
candidate list — exact mirror, reserved-token-stripped mirror, and, for a
root-alias first segment, the root-dropped variants — and returns the first
existing candidate's preview path, `none` when no candidate exists. -/
theorem C4_matcher_refines_spec (ex : List String → Bool)
    (parts : List String) :
    find_matching_wav ex parts = matchSpec ex parts := by
  unfold find_matching_wav matchSpec specCandidates stripReserved
    reservedToken rootAliases
  cases parts with
  | nil => simp [firstExisting_eq_find]
  | cons p0 rest =>
    by_cases h : lowerStr p0 = "jek\x27s vital presets"
        ∨ lowerStr p0 = "jeks vital presets"
    · have hm : lowerStr p0 ∈
          (["jek\x27s vital presets", "jeks vital presets"] : List String) := by
        rcases h with h | h <;> simp [h]
      simp [h, hm, firstExisting_eq_find]
    · have hm : ¬ lowerStr p0 ∈
          (["jek\x27s vital presets", "jeks vital presets"] : List String) := by
        simpa using h
      simp [h, hm, firstExisting_eq_find]

/-- Spec test line: `Jek's Vital Presets/PackA/Presets/Lead.vital` with a
preview at `PackA/Lead.wav` resolves via the root-alias-stripped,
reserved-token-removed variant. -/
example :
    find_matching_wav (fun c => c == ["PackA", "Lead.wav"])
      ["Jek\x27s Vital Presets", "PackA", "Presets", "Lead.vital"]
      = some ["PackA", "Lead.wav"] := by rfl

/-- Spec test line: `PackB/Presets/Bass.vital` with a preview at
`PackB/Bass.wav` resolves via the reserved-token-removed variant. -/
example :
    find_matching_wav (fun c => c == ["PackB", "Bass.wav"])
      ["PackB", "Presets", "Bass.vital"]
      = some ["PackB", "Bass.wav"] := by rfl

/-- Spec test line: `PackC/Solo.vital` with no corresponding preview returns
`none`. -/
example :
    find_matching_wav (fun _ => false) ["PackC", "Solo.vital"] = none := by rfl

/-! ### The stable-ID generator (`stable_id_for`, upload.py lines 93-98)

`stable_id_for` is `str(uuid.uuid5(uuid.NAMESPACE_URL, rel))` where `rel` is
the POSIX relative path of the preset.  RFC 4122 uuid5 is the SHA-1 of the
namespace bytes followed by the UTF-8 name bytes, truncated to 16 bytes with
the version and variant bits forced.  The embedding below implements SHA-1
literally, structurally (so concrete identifiers evaluate in the kernel),
over `Nat` with explicit reductions modulo `2 ^ 32`. -/

/-- UTF-8 encoding of one character (RFC 3629). -/
def charUtf8 (c : Char) : List Nat :=
  let n := c.toNat
  if n < 128 then [n]
  else if n < 2048 then [192 + n / 64, 128 + n % 64]
  else if n < 65536 then [224 + n / 4096, 128 + n / 64 % 64, 128 + n % 64]
  else [240 + n / 262144, 128 + n / 4096 % 64, 128 + n / 64 % 64, 128 + n % 64]

/-- Python `str.encode("utf-8")`. -/
def utf8Bytes (s : String) : List Nat :=
  s.toList.foldr (fun c acc => charUtf8 c ++ acc) []

/-- Reduction modulo 32 bits. -/
def w32 (n : Nat) : Nat := n % 4294967296

/-- 32-bit left rotation. -/
def rotl32 (n k : Nat) : Nat := w32 ((n <<< k) ||| (n >>> (32 - k)))

/-- The SHA-1 round constants. -/
def sha1K (i : Nat) : Nat :=
  if i < 20 then 1518500249
  else if i < 40 then 1859775393
  else if i < 60 then 2400959708
  else 3395469782

/-- The SHA-1 round functions (complement on 32 bits is xor with the all-ones
word). -/
def sha1F (i b c d : Nat) : Nat :=
  if i < 20 then (b &&& c) ||| ((b ^^^ 4294967295) &&& d)
  else if i < 40 then b ^^^ c ^^^ d
  else if i < 60 then (b &&& c) ||| (b &&& d) ||| (c &&& d)
  else b ^^^ c ^^^ d

/-- Big-endian 32-bit words of a byte list. -/
def bytesToWords : List Nat → List Nat
  | b0 :: b1 :: b2 :: b3 :: rest =>
    (b0 * 16777216 + b1 * 65536 + b2 * 256 + b3) :: bytesToWords rest
  | _ => []

/-- Message-schedule extension: prepend `n` further words to the reversed
word list `acc` (most recent first), each the 1-rotation of the xor of the
words 3, 8, 14 and 16 positions back. -/
def extendWs : Nat → List Nat → List Nat
  | 0, acc => acc.reverse
  | n + 1, acc =>
    extendWs n (rotl32 ((acc.getD 2 0 ^^^ acc.getD 7 0) ^^^
      (acc.getD 13 0 ^^^ acc.getD 15 0)) 1 :: acc)

/-- The 80 SHA-1 rounds over a prepared message schedule. -/
def sha1Rounds (ws : List Nat) (h : Nat × Nat × Nat × Nat × Nat) :
    Nat × Nat × Nat × Nat × Nat :=
  ws.enum.foldl
    (fun st iw =>
      match st with
      | (a, b, c, d, e) =>
        (w32 (rotl32 a 5 + sha1F iw.1 b c d + e + sha1K iw.1 + iw.2),
          a, rotl32 b 30, c, d))
    h

/-- One 64-byte SHA-1 chunk. -/
def sha1Chunk (h : Nat × Nat × Nat × Nat × Nat) (chunk : List Nat) :
    Nat × Nat × Nat × Nat × Nat :=
  match h, sha1Rounds (extendWs 64 (bytesToWords chunk).reverse) h with
  | (h0, h1, h2, h3, h4), (a, b, c, d, e) =>
    (w32 (h0 + a), w32 (h1 + b), w32 (h2 + c), w32 (h3 + d), w32 (h4 + e))

/-- Big-endian 8-byte encoding of the bit length. -/
def lenBytes8 (n : Nat) : List Nat :=
  [n / 72057594037927936 % 256, n / 281474976710656 % 256,
   n / 1099511627776 % 256, n / 4294967296 % 256, n / 16777216 % 256,
   n / 65536 % 256, n / 256 % 256, n % 256]

/-- SHA-1 padding: `0x80`, zeros to 56 mod 64, then the 64-bit bit length. -/
def sha1Pad (msg : List Nat) : List Nat :=
  msg ++ 128 :: List.replicate ((119 - msg.length % 64) % 64) 0
    ++ lenBytes8 (8 * msg.length)

/-- Split into 64-byte chunks (fuel-driven so that it evaluates
structurally; the fuel `l.length` always suffices). -/
def chunksAux : Nat → List Nat → List (List Nat)
  | 0, _ => []
  | fuel + 1, l =>
    if l.length = 0 then [] else l.take 64 :: chunksAux fuel (l.drop 64)

def chunks64 (l : List Nat) : List (List Nat) := chunksAux l.length l

/-- The SHA-1 initialization vector. -/
def sha1Init : Nat × Nat × Nat × Nat × Nat :=
  (1732584193, 4023233417, 2562383102, 271733878, 3285377520)

/-- The SHA-1 digest of a byte message, as five 32-bit words. -/
def sha1Digest (msg : List Nat) : Nat × Nat × Nat × Nat × Nat :=
  (chunks64 (sha1Pad msg)).foldl sha1Chunk sha1Init

/-- The bytes of `uuid.NAMESPACE_URL` (6ba7b811-9dad-11d1-80b4-00c04fd430c8). -/
def namespaceUrlBytes : List Nat :=
  [107, 167, 184, 17, 157, 173, 17, 209, 128, 180, 0, 192, 79, 212, 48, 200]

/-- Big-endian byte-list value. -/
def beBytesToNat (bs : List Nat) : Nat :=
  bs.foldl (fun acc b => acc * 256 + b) 0

/-- The 16 uuid5 bytes of a message: the first 16 SHA-1 digest bytes with
the version nibble forced to 5 (`(b6 & 0x0F) | 0x50`) and the variant bits
forced to RFC 4122 (`(b8 & 0x3F) | 0x80`). -/
def uuid5BytesOf (msg : List Nat) : List Nat :=
  let d := sha1Digest msg
  let h0 := d.1
  let h1 := d.2.1
  let h2 := d.2.2.1
  let h3 := d.2.2.2.1
  [h0 / 16777216 % 256, h0 / 65536 % 256, h0 / 256 % 256, h0 % 256,
   h1 / 16777216 % 256, h1 / 65536 % 256, h1 / 256 % 16 + 80, h1 % 256,
   h2 / 16777216 % 64 + 128, h2 / 65536 % 256, h2 / 256 % 256, h2 % 256,
   h3 / 16777216 % 256, h3 / 65536 % 256, h3 / 256 % 256, h3 % 256]

/-- The 128-bit value of `uuid.uuid5(uuid.NAMESPACE_URL, name)`. -/
def uuid5Val (name : List Nat) : Nat :=
  beBytesToNat (uuid5BytesOf (namespaceUrlBytes ++ name))

/-- Canonical 8-4-4-4-12 lowercase-hex rendering of a 128-bit value,
`str(uuid.UUID(int=v))`. -/
def uuidStrOfVal (v : Nat) : String :=
  let ds := Nat.toDigits 16 v
  let p := List.replicate (32 - ds.length) '0' ++ ds
  String.mk (p.take 8 ++ '-' :: ((p.drop 8).take 4 ++ '-' ::
    ((p.drop 12).take 4 ++ '-' :: ((p.drop 16).take 4 ++ '-' :: p.drop 20))))

/-- POSIX join of relative-path segments (`PurePath.as_posix`). -/
def joinPosix (parts : List String) : String :=
  String.intercalate "/" parts

/-- The identifier of a normalized forward-slash relative path:
`str(uuid.uuid5(uuid.NAMESPACE_URL, rel))`. -/
def idOfRel (rel : String) : String :=
  uuidStrOfVal (uuid5Val (utf8Bytes rel))

/-- `stable_id_for` (upload.py lines 93-98): the canonical uuid5 string of
the POSIX relative path of the preset below `PRESETS_DIR`. -/
def stable_id_for (parts : List String) : String :=
  idOfRel (joinPosix parts)

/-! ### Claim C5: determinism and (non-)injectivity of the stable ID -/

/-- Reference check: the SHA-1 of `abc` is
`a9993e364706816aba3e25717850c26c9cd0d89d`. -/
theorem sha1_abc_vector :
    sha1Digest (utf8Bytes "abc")
      = (2845392438, 1191608682, 3124634993, 2018558572, 2630932637) := by
  decide

/-- The bytes of `uuid.NAMESPACE_DNS`, for the RFC 4122 reference vector. -/
def namespaceDnsBytes : List Nat :=
  [107, 167, 184, 16, 157, 173, 17, 209, 128, 180, 0, 192, 79, 212, 48, 200]

/-- Reference check: `uuid5(NAMESPACE_DNS, "python.org")` is
`886313e1-3b8a-5372-9b90-0c9aee199e5d` (the value documented for Python
`uuid.uuid5`). -/
theorem uuid5_reference_vector :
    uuidStrOfVal
        (beBytesToNat (uuid5BytesOf (namespaceDnsBytes ++ utf8Bytes "python.org")))
      = "886313e1-3b8a-5372-9b90-0c9aee199e5d" := by
  decide

theorem beBytesToNat_fold_lt (bs : List Nat) (a : Nat)
    (hb : ∀ b ∈ bs, b < 256) :
    bs.foldl (fun acc b => acc * 256 + b) a < (a + 1) * 256 ^ bs.length := by
  induction bs generalizing a with
  | nil =>
    show a < (a + 1) * 256 ^ ([] : List Nat).length
    simp
  | cons b bs ih =>
    have hb' : ∀ x ∈ bs, x < 256 := fun x hx => hb x (List.mem_cons_of_mem b hx)
    have hblt : b < 256 := hb b (List.mem_cons_self b bs)
    have h1 := ih (a * 256 + b) hb'
    have h2 : a * 256 + b + 1 ≤ (a + 1) * 256 := by omega
    calc (b :: bs).foldl (fun acc x => acc * 256 + x) a
        = bs.foldl (fun acc x => acc * 256 + x) (a * 256 + b) := rfl
      _ < (a * 256 + b + 1) * 256 ^ bs.length := h1
      _ ≤ ((a + 1) * 256) * 256 ^ bs.length := Nat.mul_le_mul_right _ h2
      _ = (a + 1) * 256 ^ (b :: bs).length := by
          rw [List.length_cons]; ring

theorem uuid5BytesOf_bytes_lt (msg : List Nat) :
    ∀ b ∈ uuid5BytesOf msg, b < 256 := by
  intro b hb
  simp only [uuid5BytesOf, List.mem_cons, List.not_mem_nil, or_false] at hb
  rcases hb with rfl | rfl | rfl | rfl | rfl | rfl | rfl | rfl | rfl | rfl |
    rfl | rfl | rfl | rfl | rfl | rfl <;> omega

theorem uuid5BytesOf_length (msg : List Nat) :
    (uuid5BytesOf msg).length = 16 := by
  simp [uuid5BytesOf]

/-- Every uuid5 value fits in 128 bits: the identifier space is finite. -/
theorem uuid5Val_lt (name : List Nat) : uuid5Val name < 2 ^ 128 := by
  have h := beBytesToNat_fold_lt (uuid5BytesOf (namespaceUrlBytes ++ name)) 0
    (uuid5BytesOf_bytes_lt _)
  rw [uuid5BytesOf_length] at h
  have he : (0 + 1) * 256 ^ 16 = 2 ^ 128 := by norm_num
  rw [he] at h
  exact h

/-- Claim C5 counterexample: universal injectivity of the stable ID is
impossible — the identifier is a 128-bit hash value of the path, so the
infinitely many normalized relative paths cannot map to pairwise distinct
identifiers.  (By the pigeonhole principle two distinct paths share an ID,
although exhibiting such a SHA-1 collision concretely is computationally
infeasible.) -/
theorem C5_counterexample :
    ¬ (∀ p1 p2 : String, p1 ≠ p2 → idOfRel p1 ≠ idOfRel p2) := by
  intro hinj
  haveI : Infinite String := Infinite.of_injective
    (fun n : Nat => String.mk (List.replicate n 'a'))
    (fun a b h => by
      have := congrArg (fun s : String => s.data.length) h
      simp only [List.length_replicate] at this
      exact this)
  have hF : Function.Injective
      (fun s : String =>
        (⟨uuid5Val (utf8Bytes s), uuid5Val_lt _⟩ : Fin (2 ^ 128))) := by
    intro x y hxy
    by_contra hne
    have hval : uuid5Val (utf8Bytes x) = uuid5Val (utf8Bytes y) :=
      congrArg Fin.val hxy
    exact hinj x y hne (by unfold idOfRel; rw [hval])
  obtain ⟨x, y, hne, heq⟩ := Finite.exists_ne_map_eq_of_infinite
    (fun s : String =>
      (⟨uuid5Val (utf8Bytes s), uuid5Val_lt _⟩ : Fin (2 ^ 128)))
  exact hne (hF heq)

/-- Claim C5, amended: the stable ID is a pure deterministic function of the
normalized forward-slash relative path only — any two segment lists with the
same POSIX join receive byte-identical identifiers, on every invocation; but
distinct paths are only hash-distinct, not provably always distinct (see the
counterexample). -/
theorem C5_id_deterministic (p1 p2 : List String)
    (h : joinPosix p1 = joinPosix p2) :
    stable_id_for p1 = stable_id_for p2 := by
  unfold stable_id_for
  rw [h]

/-- Claim C5 witness: `["a/b.vital"]` and `["a", "b.vital"]` normalize to the
same forward-slash path and receive the same identifier. -/
theorem C5_id_deterministic_witness :
    joinPosix ["a/b.vital"] = joinPosix ["a", "b.vital"] ∧
    stable_id_for ["a/b.vital"] = stable_id_for ["a", "b.vital"] :=
  ⟨by decide, C5_id_deterministic ["a/b.vital"] ["a", "b.vital"] (by decide)⟩

/-- The identifier of the spec-relevant path `a/b.vital`, evaluated: it
matches `str(uuid.uuid5(uuid.NAMESPACE_URL, "a/b.vital"))`. -/
example :
    stable_id_for ["a", "b.vital"]
      = "fc0313ac-20ae-5adf-beb0-a4eeb95ef824" := by decide

/-! ### The sync orchestrator (`main`, upload.py lines 101-143) -/

/-- A catalog row as upserted by `upsert_preset_row` (upload.py lines
43-53); the payload deliberately carries no embedding column. -/
structure Row where
  id : String
  title : String
  visibility : String
  preset_object_key : String
  preview_object_key : Option String
  source : String
deriving DecidableEq

/-- The remote state the orchestrator writes: the two storage buckets and
the catalog table.  Next to the last upserted row the catalog keeps the
embedding column, which the upsert payload never mentions (left for the
separate backfill). -/
structure SyncState where
  presetObjects : String → Option (List Nat)
  previewObjects : String → Option (List Nat)
  catalog : String → Option (Row × Option (List Nat))

/-- Pointwise update of a keyed store: an object upload with the `upsert`
flag, overwrite-on-conflict. -/
def updMap {β : Type} (m : String → Option β) (k : String) (v : β) :
    String → Option β :=
  fun k' => if k' = k then some v else m k'

/-- The embedding column currently stored under a catalog entry. -/
def embOf (e : Option (Row × Option (List Nat))) : Option (List Nat) :=
  match e with
  | some (_, emb) => emb
  | none => none

/-- Catalog upsert keyed by `row.id`: overwrite the row columns, keep the
embedding column (absent from the payload — NULL on fresh rows, untouched on
existing ones). -/
def upsertCat (cat : String → Option (Row × Option (List Nat))) (r : Row) :
    String → Option (Row × Option (List Nat)) :=
  fun k => if k = r.id then some (r, embOf (cat r.id)) else cat k

/-- The static environment of one `main()` run: the discovered preset tree
(in its sorted enumeration order), the preview-existence probe, the file
contents, and the outcome of each remote call (`none` means the call
succeeds, `some e` means the client raises `e`). -/
structure Env where
  presetsDirExists : Bool
  previewsDirExists : Bool
  vitalFiles : List (List String)
  wavExists : List String → Bool
  vitalBytes : List String → List Nat
  wavBytes : List String → List Nat
  uploadErr : String → String → Option String
  upsertErr : Row → Option String

/-- The warning printed for an unmatched preset (upload.py line 118). -/
def warnLine (p : List String) : String :=
  "[WARN] No matching wav for: " ++ joinPosix p

/-- `vital_path.stem` — the title of the row (upload.py line 129). -/
def titleFor (p : List String) : String :=
  stemOf ((p.getLast?).getD "")

/-- The success line printed for a published preset (upload.py line 139). -/
def okLine (p : List String) : String :=
  "[OK] " ++ titleFor p ++ " -> " ++ stable_id_for p

/-- The row `upsert_preset_row` builds for a matched preset (upload.py
lines 44-52 with the arguments of lines 132-137). -/
def rowFor (p : List String) : Row :=
  { id := stable_id_for p
    title := titleFor p
    visibility := "public"
    preset_object_key := stable_id_for p ++ ".vital"
    preview_object_key := some (stable_id_for p ++ ".wav")
    source := "seed" }

/-- The body of the per-asset loop of `main` (upload.py lines 112-139):
derive the id, resolve the preview; if unmatched, count and warn and move
on; otherwise upload the preset bytes, upload the preview bytes, and upsert
the catalog row — any raising remote call aborts with its error, exactly as
the uncaught Python exception would. -/
def processAsset (env : Env) (acc : SyncState × Nat × List String)
    (p : List String) : Except String (SyncState × Nat × List String) :=
  let s := acc.1
  let missing := acc.2.1
  let log := acc.2.2
  let pid := stable_id_for p
  match find_matching_wav env.wavExists p with
  | none => Except.ok (s, missing + 1, log ++ [warnLine p])
  | some w =>
    let presetKey := pid ++ ".vital"
    let previewKey := pid ++ ".wav"
    match env.uploadErr "presets" presetKey with
    | some e => Except.error e
    | none =>
      let s1 : SyncState :=
        { s with presetObjects := updMap s.presetObjects presetKey (env.vitalBytes p) }
      match env.uploadErr "previews" previewKey with
      | some e => Except.error e
      | none =>
        let s2 : SyncState :=
          { s1 with previewObjects := updMap s1.previewObjects previewKey (env.wavBytes w) }
        match env.upsertErr (rowFor p) with
        | some e => Except.error e
        | none =>
          Except.ok ({ s2 with catalog := upsertCat s2.catalog (rowFor p) },
            missing, log ++ [okLine p])

/-- The `for vital_path in vital_files` loop: an uncaught error stops the
whole run. -/
def syncLoop (env : Env) :
    List (List String) → SyncState × Nat × List String →
      Except String (SyncState × Nat × List String)
  | [], acc => Except.ok acc
  | p :: rest, acc =>
    match processAsset env acc p with
    | Except.error e => Except.error e
    | Except.ok acc' => syncLoop env rest acc'

def foundLine (n : Nat) : String :=
  "Found " ++ toString n ++ " .vital files"

def doneLine (n : Nat) : String :=
  "Done with warnings: " ++ toString n ++ " presets had no matching .wav."

/-- `main()` (upload.py lines 101-143): check the two roots, loop over the
sorted preset files, and print the warning summary when any preset had no
preview. -/
def mainSync (env : Env) (s0 : SyncState) :
    Except String (SyncState × Nat × List String) :=
  if env.presetsDirExists = false then Except.error "PRESETS_DIR not found"
  else if env.previewsDirExists = false then Except.error "PREVIEWS_DIR not found"
  else
    match syncLoop env env.vitalFiles (s0, 0, [foundLine env.vitalFiles.length]) with
    | Except.error e => Except.error e
    | Except.ok (s, n, log) =>
      Except.ok (s, n, if 0 < n then log ++ [doneLine n] else log)

/-- The state effect of one successfully processed asset. -/
def writeAsset (env : Env) (s : SyncState) (p : List String) : SyncState :=
  match find_matching_wav env.wavExists p with
  | none => s
  | some w =>
    { presetObjects :=
        updMap s.presetObjects (stable_id_for p ++ ".vital") (env.vitalBytes p)
      previewObjects :=
        updMap s.previewObjects (stable_id_for p ++ ".wav") (env.wavBytes w)
      catalog := upsertCat s.catalog (rowFor p) }

/-- The contribution of one asset to the unmatched counter. -/
def missInc (env : Env) (p : List String) : Nat :=
  match find_matching_wav env.wavExists p with
  | none => 1
  | some _ => 0

/-- The log line one asset produces. -/
def assetLine (env : Env) (p : List String) : String :=
  match find_matching_wav env.wavExists p with
  | none => warnLine p
  | some _ => okLine p

theorem processAsset_noFail (env : Env)
    (hup : env.uploadErr = fun _ _ => none)
    (hups : env.upsertErr = fun _ => none)
    (s : SyncState) (n : Nat) (log : List String) (p : List String) :
    processAsset env (s, n, log) p
      = Except.ok (writeAsset env s p, n + missInc env p,
          log ++ [assetLine env p]) := by
  unfold processAsset writeAsset missInc assetLine
  cases h : find_matching_wav env.wavExists p with
  | none => simp
  | some w => simp [hup, hups]

/-- Last-write-wins extraction over a list of writers. -/
def lastOf {α β : Type} (g : α → Option β) (l : List α) : Option β :=
  l.foldl (fun acc x => match g x with | some y => some y | none => acc) none

theorem lastOf_fold {α β : Type} (g : α → Option β) (l : List α)
    (a : Option β) :
    l.foldl (fun acc x => match g x with | some y => some y | none => acc) a
      = match lastOf g l with | some y => some y | none => a := by
  induction l generalizing a with
  | nil => rfl
  | cons x l ih =>
    rw [List.foldl_cons, ih]
    have e2 : lastOf g (x :: l)
        = match lastOf g l with
          | some y => some y
          | none => match g x with | some y => some y | none => none := by
      unfold lastOf
      rw [List.foldl_cons]
      exact ih _
    rw [e2]
    cases hl : lastOf g l <;> cases hg : g x <;> rfl

theorem lastOf_cons {α β : Type} (g : α → Option β) (x : α) (l : List α) :
    lastOf g (x :: l)
      = match lastOf g l with
        | some y => some y
        | none => g x := by
  have e : lastOf g (x :: l)
      = l.foldl (fun acc z => match g z with | some y => some y | none => acc)
          (match g x with | some y => some y | none => none) := rfl
  rw [e, lastOf_fold]
  cases hl : lastOf g l <;> cases hg : g x <;> rfl

/-- The preset-bucket write one asset performs at key `k`. -/
def gPreset (env : Env) (k : String) (p : List String) : Option (List Nat) :=
  match find_matching_wav env.wavExists p with
  | none => none
  | some _ =>
    if k = stable_id_for p ++ ".vital" then some (env.vitalBytes p) else none

/-- The preview-bucket write one asset performs at key `k`. -/
def gPreview (env : Env) (k : String) (p : List String) : Option (List Nat) :=
  match find_matching_wav env.wavExists p with
  | none => none
  | some w =>
    if k = stable_id_for p ++ ".wav" then some (env.wavBytes w) else none

/-- The catalog row one asset upserts at key `k`. -/
def gRow (env : Env) (k : String) (p : List String) : Option Row :=
  match find_matching_wav env.wavExists p with
  | none => none
  | some _ => if k = (rowFor p).id then some (rowFor p) else none

theorem writeAsset_presetObjects (env : Env) (s : SyncState) (p : List String)
    (k : String) :
    (writeAsset env s p).presetObjects k
      = match gPreset env k p with
        | some v => some v
        | none => s.presetObjects k := by
  unfold writeAsset gPreset
  cases h : find_matching_wav env.wavExists p with
  | none => rfl
  | some w =>
    by_cases hk : k = stable_id_for p ++ ".vital" <;> simp [updMap, hk]

theorem writeAsset_previewObjects (env : Env) (s : SyncState) (p : List String)
    (k : String) :
    (writeAsset env s p).previewObjects k
      = match gPreview env k p with
        | some v => some v
        | none => s.previewObjects k := by
  unfold writeAsset gPreview
  cases h : find_matching_wav env.wavExists p with
  | none => rfl
  | some w =>
    by_cases hk : k = stable_id_for p ++ ".wav" <;> simp [updMap, hk]

theorem writeAsset_catalog (env : Env) (s : SyncState) (p : List String)
    (k : String) :
    (writeAsset env s p).catalog k
      = match gRow env k p with
        | some r => some (r, embOf (s.catalog k))
        | none => s.catalog k := by
  unfold writeAsset gRow
  cases h : find_matching_wav env.wavExists p with
  | none => rfl
  | some w =>
    by_cases hk : k = (rowFor p).id
    · subst hk
      simp [upsertCat]
    · simp [upsertCat, hk]

/-- Processing an asset never changes the embedding column at any key. -/
theorem embOf_writeAsset (env : Env) (s : SyncState) (p : List String)
    (k : String) :
    embOf ((writeAsset env s p).catalog k) = embOf (s.catalog k) := by
  rw [writeAsset_catalog]
  cases hg : gRow env k p with
  | none => rfl
  | some r => rfl

theorem foldl_writeAsset_presetObjects (env : Env) (fs : List (List String))
    (s : SyncState) (k : String) :
    (fs.foldl (writeAsset env) s).presetObjects k
      = match lastOf (gPreset env k) fs with
        | some v => some v
        | none => s.presetObjects k := by
  induction fs generalizing s with
  | nil => rfl
  | cons p fs ih =>
    show (fs.foldl (writeAsset env) (writeAsset env s p)).presetObjects k = _
    rw [ih, lastOf_cons]
    cases hl : lastOf (gPreset env k) fs with
    | some v => rfl
    | none => rw [writeAsset_presetObjects]

theorem foldl_writeAsset_previewObjects (env : Env) (fs : List (List String))
    (s : SyncState) (k : String) :
    (fs.foldl (writeAsset env) s).previewObjects k
      = match lastOf (gPreview env k) fs with
        | some v => some v
        | none => s.previewObjects k := by
  induction fs generalizing s with
  | nil => rfl
  | cons p fs ih =>
    show (fs.foldl (writeAsset env) (writeAsset env s p)).previewObjects k = _
    rw [ih, lastOf_cons]
    cases hl : lastOf (gPreview env k) fs with
    | some v => rfl
    | none => rw [writeAsset_previewObjects]

theorem foldl_writeAsset_catalog (env : Env) (fs : List (List String))
    (s : SyncState) (k : String) :
    (fs.foldl (writeAsset env) s).catalog k
      = match lastOf (gRow env k) fs with
        | some r => some (r, embOf (s.catalog k))
        | none => s.catalog k := by
  induction fs generalizing s with
  | nil => rfl
  | cons p fs ih =>
    show (fs.foldl (writeAsset env) (writeAsset env s p)).catalog k = _
    rw [ih, lastOf_cons]
    cases hl : lastOf (gRow env k) fs with
    | some r => rw [embOf_writeAsset]
    | none => rw [writeAsset_catalog]

theorem syncState_ext (a b : SyncState)
    (h1 : a.presetObjects = b.presetObjects)
    (h2 : a.previewObjects = b.previewObjects)
    (h3 : a.catalog = b.catalog) : a = b := by
  cases a
  cases b
  congr 1

/-- Replaying all asset writes over an already-written state is a no-op:
every write is a keyed overwrite with the same derived key and the same
value. -/
theorem stateFold_idem (env : Env) (fs : List (List String)) (s : SyncState) :
    fs.foldl (writeAsset env) (fs.foldl (writeAsset env) s)
      = fs.foldl (writeAsset env) s := by
  apply syncState_ext
  · funext k
    rw [foldl_writeAsset_presetObjects, foldl_writeAsset_presetObjects]
    cases hl : lastOf (gPreset env k) fs <;> rfl
  · funext k
    rw [foldl_writeAsset_previewObjects, foldl_writeAsset_previewObjects]
    cases hl : lastOf (gPreview env k) fs <;> rfl
  · funext k
    rw [foldl_writeAsset_catalog, foldl_writeAsset_catalog]
    cases hl : lastOf (gRow env k) fs with
    | some r => rfl
    | none => rfl

/-- The unmatched count of a whole run. -/
def totalMiss (env : Env) : Nat :=
  (env.vitalFiles.map (missInc env)).sum

/-- The log of a whole (failure-free) run. -/
def runLog (env : Env) : List String :=
  let base := foundLine env.vitalFiles.length :: env.vitalFiles.map (assetLine env)
  if 0 < totalMiss env then base ++ [doneLine (totalMiss env)] else base

theorem syncLoop_noFail (env : Env)
    (hup : env.uploadErr = fun _ _ => none)
    (hups : env.upsertErr = fun _ => none)
    (fs : List (List String)) :
    ∀ (s : SyncState) (n : Nat) (log : List String),
    syncLoop env fs (s, n, log)
      = Except.ok (fs.foldl (writeAsset env) s,
          n + (fs.map (missInc env)).sum,
          log ++ fs.map (assetLine env)) := by
  induction fs with
  | nil =>
    intro s n log
    simp [syncLoop]
  | cons p fs ih =>
    intro s n log
    have hstep : syncLoop env (p :: fs) (s, n, log)
        = syncLoop env fs (writeAsset env s p, n + missInc env p,
            log ++ [assetLine env p]) := by
      rw [show syncLoop env (p :: fs) (s, n, log)
          = match processAsset env (s, n, log) p with
            | Except.error e => Except.error e
            | Except.ok acc' => syncLoop env fs acc' from rfl]
      rw [processAsset_noFail env hup hups]
    rw [hstep, ih]
    simp [List.foldl_cons, List.map_cons, List.sum_cons, Nat.add_assoc,
      List.append_assoc]

theorem mainSync_noFail (env : Env)
    (hup : env.uploadErr = fun _ _ => none)
    (hups : env.upsertErr = fun _ => none)
    (hd1 : env.presetsDirExists = true)
    (hd2 : env.previewsDirExists = true) (s : SyncState) :
    mainSync env s
      = Except.ok (env.vitalFiles.foldl (writeAsset env) s,
          totalMiss env, runLog env) := by
  unfold mainSync
  rw [hd1, hd2, syncLoop_noFail env hup hups]
  simp only [Nat.zero_add]
  rfl

/-- Claim C1: running `main` twice over an unchanged tree is idempotent —
the second run derives the same ids, overwrites the same object keys with
the same bytes, upserts the same rows keyed by id, and therefore reproduces
exactly the catalog and object-store state (and the same summary) of the
first run. -/
theorem C1_sync_idempotent (env : Env)
    (hup : env.uploadErr = fun _ _ => none)
    (hups : env.upsertErr = fun _ => none)
    (hd1 : env.presetsDirExists = true)
    (hd2 : env.previewsDirExists = true)
    (s0 s1 : SyncState) (n : Nat) (log : List String)
    (h : mainSync env s0 = Except.ok (s1, n, log)) :
    mainSync env s1 = Except.ok (s1, n, log) := by
  rw [mainSync_noFail env hup hups hd1 hd2 s0] at h
  rw [Except.ok.injEq, Prod.mk.injEq, Prod.mk.injEq] at h
  obtain ⟨hs, hn, hl⟩ := h
  subst hn
  subst hl
  subst hs
  rw [mainSync_noFail env hup hups hd1 hd2]
  rw [stateFold_idem]

/-- The empty remote state: both buckets and the catalog start empty. -/
def emptyState : SyncState :=
  { presetObjects := fun _ => none
    previewObjects := fun _ => none
    catalog := fun _ => none }

/-- A concrete run over one preset with no matching preview and no remote
failures (the spec's `PackC/Solo.vital` no-match scenario). -/
def envUnmatched : Env :=
  { presetsDirExists := true
    previewsDirExists := true
    vitalFiles := [["PackC", "Solo.vital"]]
    wavExists := fun _ => false
    vitalBytes := fun _ => []
    wavBytes := fun _ => []
    uploadErr := fun _ _ => none
    upsertErr := fun _ => none }

/-- Claim C1 witness: a concrete failure-free run, re-run from its own final
state, reproduces that state and summary. -/
theorem C1_sync_idempotent_witness :
    envUnmatched.uploadErr = (fun _ _ => none) ∧
    envUnmatched.upsertErr = (fun _ => none) ∧
    envUnmatched.presetsDirExists = true ∧
    envUnmatched.previewsDirExists = true ∧
    mainSync envUnmatched emptyState
      = Except.ok (emptyState, 1,
          [foundLine 1, warnLine ["PackC", "Solo.vital"], doneLine 1]) :=
  ⟨rfl, rfl, rfl, rfl,
    C1_sync_idempotent envUnmatched rfl rfl rfl rfl emptyState emptyState 1
      [foundLine 1, warnLine ["PackC", "Solo.vital"], doneLine 1] rfl⟩

/-- Claim C6: an unmatched preset only increments the unmatched counter and
appends the warning naming it; the remote state is untouched (no upload, no
upsert), and the run continues with the remaining assets exactly as if it
had started past this asset. -/
theorem C6_unmatched_skipped (env : Env) (s : SyncState) (n : Nat)
    (log : List String) (p : List String) (rest : List (List String))
    (h : find_matching_wav env.wavExists p = none) :
    processAsset env (s, n, log) p
      = Except.ok (s, n + 1, log ++ [warnLine p]) ∧
    syncLoop env (p :: rest) (s, n, log)
      = syncLoop env rest (s, n + 1, log ++ [warnLine p]) ∧
    warnLine p = "[WARN] No matching wav for: " ++ joinPosix p := by
  have h1 : processAsset env (s, n, log) p
      = Except.ok (s, n + 1, log ++ [warnLine p]) := by
    unfold processAsset
    rw [h]
  refine ⟨h1, ?_, rfl⟩
  rw [show syncLoop env (p :: rest) (s, n, log)
      = match processAsset env (s, n, log) p with
        | Except.error e => Except.error e
        | Except.ok acc' => syncLoop env rest acc' from rfl]
  rw [h1]

/-- Claim C6 witness: the spec's `PackC/Solo.vital` no-match run — warned,
counted, state untouched, loop continues. -/
theorem C6_unmatched_skipped_witness :
    find_matching_wav envUnmatched.wavExists ["PackC", "Solo.vital"] = none ∧
    processAsset envUnmatched (emptyState, 0, []) ["PackC", "Solo.vital"]
      = Except.ok (emptyState, 0 + 1, [] ++ [warnLine ["PackC", "Solo.vital"]]) ∧
    syncLoop envUnmatched [["PackC", "Solo.vital"]] (emptyState, 0, [])
      = syncLoop envUnmatched [] (emptyState, 0 + 1,
          [] ++ [warnLine ["PackC", "Solo.vital"]]) :=
  ⟨rfl,
    (C6_unmatched_skipped envUnmatched emptyState 0 [] ["PackC", "Solo.vital"]
      [] rfl).1,
    (C6_unmatched_skipped envUnmatched emptyState 0 [] ["PackC", "Solo.vital"]
      [] rfl).2.1⟩

/-- Claim C7, amended: `main` has no try/except — a failing remote write
(either upload or the catalog upsert) propagates as an uncaught exception
and aborts the entire run at once: the loop stops, the remaining assets are
never processed, and no summary is produced. -/
theorem C7_remote_failure_aborts (env : Env)
    (acc : SyncState × Nat × List String) (p : List String)
    (rest : List (List String)) :
    (∀ w e, find_matching_wav env.wavExists p = some w →
      env.uploadErr "presets" (stable_id_for p ++ ".vital") = some e →
      syncLoop env (p :: rest) acc = Except.error e) ∧
    (∀ w e, find_matching_wav env.wavExists p = some w →
      env.uploadErr "presets" (stable_id_for p ++ ".vital") = none →
      env.uploadErr "previews" (stable_id_for p ++ ".wav") = some e →
      syncLoop env (p :: rest) acc = Except.error e) ∧
    (∀ w e, find_matching_wav env.wavExists p = some w →
      env.uploadErr "presets" (stable_id_for p ++ ".vital") = none →
      env.uploadErr "previews" (stable_id_for p ++ ".wav") = none →
      env.upsertErr (rowFor p) = some e →
      syncLoop env (p :: rest) acc = Except.error e) := by
  refine ⟨?_, ?_, ?_⟩
  · intro w e hw he
    rw [show syncLoop env (p :: rest) acc
        = match processAsset env acc p with
          | Except.error e => Except.error e
          | Except.ok acc' => syncLoop env rest acc' from rfl]
    unfold processAsset
    simp only [hw, he]
  · intro w e hw h1 he
    rw [show syncLoop env (p :: rest) acc
        = match processAsset env acc p with
          | Except.error e => Except.error e
          | Except.ok acc' => syncLoop env rest acc' from rfl]
    unfold processAsset
    simp only [hw, h1, he]
  · intro w e hw h1 h2 he
    rw [show syncLoop env (p :: rest) acc
        = match processAsset env acc p with
          | Except.error e => Except.error e
          | Except.ok acc' => syncLoop env rest acc' from rfl]
    unfold processAsset
    simp only [hw, h1, h2, he]

/-- A concrete run of two matched presets in which every preset-bucket
upload raises. -/
def envFailing : Env :=
  { presetsDirExists := true
    previewsDirExists := true
    vitalFiles := [["A.vital"], ["B.vital"]]
    wavExists := fun _ => true
    vitalBytes := fun _ => [1]
    wavBytes := fun _ => [2]
    uploadErr := fun bucket _ =>
      if bucket = "presets" then some "upload failed" else none
    upsertErr := fun _ => none }

/-- Claim C7 counterexample: with two matched presets and a raising upload
on the first, the whole run aborts with the error — nothing is caught, no
per-asset failure is recorded, the second asset is never processed, and no
summary is produced.  The claim that a remote-write failure is caught and
the run continues is false of the code. -/
theorem C7_counterexample :
    mainSync envFailing emptyState = Except.error "upload failed" := by rfl

/-- Claim C7 witness (for the amended claim): in the failing run, the loop
over both assets aborts with the first asset's upload error. -/
theorem C7_remote_failure_aborts_witness :
    find_matching_wav envFailing.wavExists ["A.vital"] = some ["A.wav"] ∧
    envFailing.uploadErr "presets" (stable_id_for ["A.vital"] ++ ".vital")
      = some "upload failed" ∧
    syncLoop envFailing [["A.vital"], ["B.vital"]]
        (emptyState, 0, [foundLine 2])
      = Except.error "upload failed" :=
  ⟨rfl, rfl,
    (C7_remote_failure_aborts envFailing (emptyState, 0, [foundLine 2])
      ["A.vital"] [["B.vital"]]).1 ["A.wav"] "upload failed" rfl rfl⟩

/-- Claim C8: a matched preset is published exactly as the spec says — the
preset bytes are uploaded under `{id}.vital` to the `presets` bucket, the
preview bytes under `{id}.wav` to the `previews` bucket, and the upserted
row has id `ID(presetPath)`, the filename stem as title, visibility
`public`, source `seed`, and a null embedding on a fresh row. -/
theorem C8_matched_published (env : Env) (s : SyncState) (n : Nat)
    (log : List String) (p : List String) (w : List String)
    (hw : find_matching_wav env.wavExists p = some w)
    (hu1 : env.uploadErr "presets" (stable_id_for p ++ ".vital") = none)
    (hu2 : env.uploadErr "previews" (stable_id_for p ++ ".wav") = none)
    (hups : env.upsertErr (rowFor p) = none) :
    processAsset env (s, n, log) p
      = Except.ok (writeAsset env s p, n, log ++ [okLine p]) ∧
    (writeAsset env s p).presetObjects (stable_id_for p ++ ".vital")
      = some (env.vitalBytes p) ∧
    (writeAsset env s p).previewObjects (stable_id_for p ++ ".wav")
      = some (env.wavBytes w) ∧
    (writeAsset env s p).catalog (stable_id_for p)
      = some (rowFor p, embOf (s.catalog (stable_id_for p))) ∧
    (s.catalog (stable_id_for p) = none →
      (writeAsset env s p).catalog (stable_id_for p) = some (rowFor p, none)) ∧
    (rowFor p).id = stable_id_for p ∧
    (rowFor p).title = stemOf ((p.getLast?).getD "") ∧
    (rowFor p).visibility = "public" ∧
    (rowFor p).source = "seed" ∧
    (rowFor p).preset_object_key = stable_id_for p ++ ".vital" ∧
    (rowFor p).preview_object_key = some (stable_id_for p ++ ".wav") := by
  have hcat : (writeAsset env s p).catalog (stable_id_for p)
      = some (rowFor p, embOf (s.catalog (stable_id_for p))) := by
    unfold writeAsset
    rw [hw]
    show upsertCat s.catalog (rowFor p) (stable_id_for p) = _
    unfold upsertCat
    have hid : stable_id_for p = (rowFor p).id := rfl
    rw [if_pos hid, ← hid]
  refine ⟨?_, ?_, ?_, hcat, ?_, rfl, rfl, rfl, rfl, rfl, rfl⟩
  · unfold processAsset writeAsset
    simp only [hw, hu1, hu2, hups]
  · unfold writeAsset
    rw [hw]
    show updMap s.presetObjects (stable_id_for p ++ ".vital")
        (env.vitalBytes p) (stable_id_for p ++ ".vital") = _
    unfold updMap
    rw [if_pos rfl]
  · unfold writeAsset
    rw [hw]
    show updMap s.previewObjects (stable_id_for p ++ ".wav")
        (env.wavBytes w) (stable_id_for p ++ ".wav") = _
    unfold updMap
    rw [if_pos rfl]
  · intro hnone
    rw [hcat, hnone]
    rfl

/-- A concrete matched run (the spec's `PackB/Presets/Bass.vital` scenario)
with no remote failures. -/
def envMatched : Env :=
  { presetsDirExists := true
    previewsDirExists := true
    vitalFiles := [["PackB", "Presets", "Bass.vital"]]
    wavExists := fun c => c == ["PackB", "Bass.wav"]
    vitalBytes := fun _ => [10]
    wavBytes := fun _ => [20]
    uploadErr := fun _ _ => none
    upsertErr := fun _ => none }

/-- Claim C8 witness: the `PackB/Presets/Bass.vital` preset resolves to
`PackB/Bass.wav` and, on a fresh catalog, is published with a null
embedding. -/
theorem C8_matched_published_witness :
    find_matching_wav envMatched.wavExists ["PackB", "Presets", "Bass.vital"]
      = some ["PackB", "Bass.wav"] ∧
    emptyState.catalog (stable_id_for ["PackB", "Presets", "Bass.vital"])
      = none ∧
    (writeAsset envMatched emptyState ["PackB", "Presets", "Bass.vital"]).catalog
        (stable_id_for ["PackB", "Presets", "Bass.vital"])
      = some (rowFor ["PackB", "Presets", "Bass.vital"], none) :=
  ⟨rfl, rfl,
    (C8_matched_published envMatched emptyState 0 []
      ["PackB", "Presets", "Bass.vital"] ["PackB", "Bass.wav"]
      rfl rfl rfl rfl).2.2.2.2.1 rfl⟩

/-! ### The patch CLI (`__main__` of modify_preset.py, lines 17-33) -/

/-- What the filesystem holds at a path: nothing, content that fails to
parse as JSON, or a parsed JSON document. -/
inductive FileData where
  | missing : FileData
  | invalid : FileData
  | jdoc (j : Json) : FileData

/-- `os.path.exists` is false. -/
def FileData.isMissing : FileData → Bool
  | FileData.missing => true
  | _ => false

/-- The observable outcome of one CLI invocation: the process exit code,
the output file (path and full serialized content, `none` when no file is
written), and the stdout lines. -/
structure CliResult where
  exitCode : Nat
  written : Option (String × Json)
  stdout : List String

def usageLine : String :=
  "Usage: python modify_preset.py <original_vital> <patch_json> <output_vital>"

def savedLine (out : String) : String :=
  "Patched vital file saved to " ++ out

/-- The CLI body once the three path arguments are bound, in the exact
order of the source: existence check of the original, existence check of
the patch, `json.load` of the patch, then `apply_patch_to_vital` (which
loads the base document, raising before any write when its content is
invalid or the loaded document is not a dict, and raising at
`patch_dict.items()` when the patch is not a mapping).  An uncaught Python
exception exits with code 1 and writes no output file; the output file is
only created (by `open(output_path, "w")`) after the patched document has
been fully constructed in memory, so the written content, when present, is
always the complete patched document. -/
def runCli4 (original patchPath output : String)
    (fs : String → FileData) : CliResult :=
  if (fs original).isMissing = true then
    { exitCode := 1, written := none,
      stdout := ["Original vital file not found: " ++ original] }
  else if (fs patchPath).isMissing = true then
    { exitCode := 1, written := none,
      stdout := ["Patch JSON file not found: " ++ patchPath] }
  else
    match fs patchPath with
    | FileData.missing => { exitCode := 1, written := none, stdout := [] }
    | FileData.invalid => { exitCode := 1, written := none, stdout := [] }
    | FileData.jdoc pj =>
      match fs original with
      | FileData.missing => { exitCode := 1, written := none, stdout := [] }
      | FileData.invalid => { exitCode := 1, written := none, stdout := [] }
      | FileData.jdoc bj =>
        match bj with
        | Json.obj bobj =>
          match pj with
          | Json.obj pobj =>
            { exitCode := 0,
              written := some (output, Json.obj (applyPatch bobj pobj)),
              stdout := [savedLine output] }
          | _ => { exitCode := 1, written := none, stdout := [] }
        | _ => { exitCode := 1, written := none, stdout := [] }

/-- The CLI of modify_preset.py (lines 17-33): `sys.argv` must have exactly
four entries (the script name and the three paths), otherwise the usage
message is printed and the process exits 1 with no side effect. -/
def runCli (argv : List String) (fs : String → FileData) : CliResult :=
  match argv with
  | [_, original, patchPath, output] => runCli4 original patchPath output fs
  | _ => { exitCode := 1, written := none, stdout := [usageLine] }

/-- Claim C9: the patch CLI exits 1 with a message and writes nothing on a
wrong argument count or a missing input path; writes nothing when an input
fails to parse as the expected structured format (or is not a mapping); and
on success exits 0, prints the line naming the output path, and writes the
complete patched document — the output file never holds anything but the
fully constructed result. -/
theorem C9_cli_contract (fs : String → FileData) :
    (∀ argv : List String, argv.length ≠ 4 →
      runCli argv fs
        = { exitCode := 1, written := none, stdout := [usageLine] }) ∧
    (∀ a0 original patchPath output : String,
      (fs original).isMissing = true →
      runCli [a0, original, patchPath, output] fs
        = { exitCode := 1, written := none,
            stdout := ["Original vital file not found: " ++ original] }) ∧
    (∀ a0 original patchPath output : String,
      (fs patchPath).isMissing = true →
      (runCli [a0, original, patchPath, output] fs).exitCode = 1 ∧
      (runCli [a0, original, patchPath, output] fs).written = none ∧
      ((fs original).isMissing = false →
        (runCli [a0, original, patchPath, output] fs).stdout
          = ["Patch JSON file not found: " ++ patchPath])) ∧
    (∀ a0 original patchPath output : String,
      (fs original = FileData.invalid ∨ fs patchPath = FileData.invalid) →
      (runCli [a0, original, patchPath, output] fs).written = none ∧
      (runCli [a0, original, patchPath, output] fs).exitCode = 1) ∧
    (∀ (a0 original patchPath output : String) (bobj pobj : Obj),
      fs original = FileData.jdoc (Json.obj bobj) →
      fs patchPath = FileData.jdoc (Json.obj pobj) →
      runCli [a0, original, patchPath, output] fs
        = { exitCode := 0,
            written := some (output, Json.obj (applyPatch bobj pobj)),
            stdout := [savedLine output] }) := by
  refine ⟨?_, ?_, ?_, ?_, ?_⟩
  · intro argv h
    match argv with
    | [] => rfl
    | [_] => rfl
    | [_, _] => rfl
    | [_, _, _] => rfl
    | [_, _, _, _] => exact absurd rfl h
    | _ :: _ :: _ :: _ :: _ :: _ => rfl
  · intro a0 original patchPath output hm
    show runCli4 original patchPath output fs = _
    simp [runCli4, hm]
  · intro a0 original patchPath output hm
    have hp : fs patchPath = FileData.missing := by
      cases h : fs patchPath
      · rfl
      · rw [h] at hm; simp [FileData.isMissing] at hm
      · rw [h] at hm; simp [FileData.isMissing] at hm
    show (runCli4 original patchPath output fs).exitCode = 1 ∧
      (runCli4 original patchPath output fs).written = none ∧
      ((fs original).isMissing = false →
        (runCli4 original patchPath output fs).stdout
          = ["Patch JSON file not found: " ++ patchPath])
    cases horig : fs original <;>
      simp [runCli4, hp, horig, FileData.isMissing]
  · intro a0 original patchPath output hinv
    show (runCli4 original patchPath output fs).written = none ∧
      (runCli4 original patchPath output fs).exitCode = 1
    rcases horig : fs original with _ | _ | bj <;>
      rcases hpatch : fs patchPath with _ | _ | pj <;>
      simp [horig, hpatch] at hinv ⊢ <;>
      simp [runCli4, horig, hpatch, FileData.isMissing]
  · intro a0 original patchPath output bobj pobj hb hp
    show runCli4 original patchPath output fs = _
    simp [runCli4, hb, hp, FileData.isMissing]

/-- The filesystem of the CLI witness run: a valid base document, a valid
patch mapping, nothing else. -/
def fsW : String → FileData := fun path =>
  if path = "base.vital" then
    FileData.jdoc (Json.obj
      [("settings", Json.obj [("a", Json.num 1)]), ("meta", Json.bool true)])
  else if path = "patch.json" then
    FileData.jdoc (Json.obj [("b", Json.num 5)])
  else FileData.missing

/-- Claim C9 witness: a wrong argument count exits 1 without writing; a
missing original path exits 1 without writing; a missing patch path exits 1
without writing and names the missing path on stdout; the successful
concrete run exits 0, names the output path on stdout and writes the
complete patched document. -/
theorem C9_cli_contract_witness :
    (["modify_preset.py"] : List String).length ≠ 4 ∧
    runCli ["modify_preset.py"] fsW
      = { exitCode := 1, written := none, stdout := [usageLine] } ∧
    (fsW "nope.vital").isMissing = true ∧
    (runCli ["modify_preset.py", "nope.vital", "patch.json", "out.vital"]
      fsW).written = none ∧
    (fsW "nopatch.json").isMissing = true ∧
    (fsW "base.vital").isMissing = false ∧
    (runCli ["modify_preset.py", "base.vital", "nopatch.json", "out.vital"]
      fsW).written = none ∧
    (runCli ["modify_preset.py", "base.vital", "nopatch.json", "out.vital"]
      fsW).stdout = ["Patch JSON file not found: " ++ "nopatch.json"] ∧
    runCli ["modify_preset.py", "base.vital", "patch.json", "out.vital"] fsW
      = { exitCode := 0,
          written := some ("out.vital", Json.obj (applyPatch
            [("settings", Json.obj [("a", Json.num 1)]),
             ("meta", Json.bool true)]
            [("b", Json.num 5)])),
          stdout := [savedLine "out.vital"] } := by
  have h1 := (C9_cli_contract fsW).1 ["modify_preset.py"] (by decide)
  have h2 := (C9_cli_contract fsW).2.1 "modify_preset.py" "nope.vital"
    "patch.json" "out.vital" (by decide)
  have h4 := (C9_cli_contract fsW).2.2.1 "modify_preset.py" "base.vital"
    "nopatch.json" "out.vital" (by decide)
  have h3 := (C9_cli_contract fsW).2.2.2.2 "modify_preset.py" "base.vital"
    "patch.json" "out.vital"
    [("settings", Json.obj [("a", Json.num 1)]), ("meta", Json.bool true)]
    [("b", Json.num 5)] (by rfl) (by rfl)
  exact ⟨by decide, h1, by decide, by rw [h2], by decide, by decide,
    h4.2.1, h4.2.2 (by decide), h3⟩
